import Mathlib

/-!
Shallow embedding of the manifest-driven synchronization and patch engine of
`LutheringLaves.py` (class `Launcher`), together with theorems checking the
natural-language specification against it.

Conventions of the embedding:
* byte counts, sizes and HTTP status codes are `Nat`;
* the on-disk tree is abstracted to the observations the code makes of it:
  for the downloader, the sizes of the destination file and of its sibling
  `.temp` file (`Option Nat`, `none` = absent); for the verifier, an MD5
  digest per path (`String → Option String`, `none` = absent, mirroring
  `get_file_md5` returning `None` on `FileNotFoundError`);
* the network is an oracle (`ServerBehavior`) saying how `urlopen` behaves
  for one request: a response with a status, a `Content-Length` and a chunk
  sequence, or an `HTTPError` (which carries a `.code` attribute), or a
  transport-level fault such as a timeout or DNS failure (whose exception
  object has no `.code` attribute);
* fallible code returns `Except`; a Python statement that raises an
  exception type the surrounding code does not catch is an `.error`.
-/

namespace LutheringLaves

/-! ## Progress accounting (`ProgressInfo`, `update_progress`) -/

/-- Embeds class `ProgressInfo`: the four counters, all starting at zero. -/
structure ProgressInfo where
  total_size : Nat := 0
  finished_size : Nat := 0
  total_count : Nat := 0
  finished_count : Nat := 0
deriving DecidableEq

/-- The four operation kinds whose progress `update_progress` dispatches on. -/
inductive Kind
  | download
  | update
  | verify
  | update_patch
deriving DecidableEq

/-- The string flag each kind is keyed by in `update_progress`. -/
def kindFlag : Kind → Option String
  | .download => some "download"
  | .update => some "update"
  | .verify => some "verify"
  | .update_patch => some "update_patch"

/-- The four per-kind `ProgressInfo` instances held by the `Launcher`. -/
structure ProgressState where
  download_game_progress : ProgressInfo
  verify_game_progress : ProgressInfo
  update_game_progress : ProgressInfo
  update_game_progress_patch : ProgressInfo
deriving DecidableEq

/-- One `finished_size += value` step on a single `ProgressInfo`. -/
def addFinished (p : ProgressInfo) (value : Nat) : ProgressInfo :=
  { p with finished_size := p.finished_size + value }

/-- Embeds `update_progress(flag, value)`: the if/elif chain keyed on the
flag string adds `value` to that kind's `finished_size`; any other flag
(including `None`, which the re-download inside `verify_gamefile` passes)
is silently ignored.  The callback invocation is observational only. -/
def update_progress (st : ProgressState) (flag : Option String) (value : Nat) :
    ProgressState :=
  if flag = some "download" then
    { st with download_game_progress := addFinished st.download_game_progress value }
  else if flag = some "update" then
    { st with update_game_progress := addFinished st.update_game_progress value }
  else if flag = some "verify" then
    { st with verify_game_progress := addFinished st.verify_game_progress value }
  else if flag = some "update_patch" then
    { st with update_game_progress_patch := addFinished st.update_game_progress_patch value }
  else st

/-- The `ProgressInfo` a kind selects in `ProgressState`. -/
def progressOf (st : ProgressState) : Kind → ProgressInfo
  | .download => st.download_game_progress
  | .update => st.update_game_progress
  | .verify => st.verify_game_progress
  | .update_patch => st.update_game_progress_patch

/-- A sequence of `update_progress` calls, as (flag, value) pairs in order. -/
def apply_updates (st : ProgressState) (us : List (Option String × Nat)) :
    ProgressState :=
  us.foldl (fun s u => update_progress s u.1 u.2) st

/-- The bytes a sequence of updates reports for one kind. -/
def valSum (k : Kind) (us : List (Option String × Nat)) : Nat :=
  ((us.filter fun u => decide (u.1 = kindFlag k)).map Prod.snd).sum

/-- The chunk-level update sequence of one pass of kind `k`: each resource
contributes its own list of reported byte values, all carrying `k`'s flag,
concatenated in manifest order. -/
def passUpdates (k : Kind) (contribs : List (List Nat)) :
    List (Option String × Nat) :=
  (contribs.map fun c => c.map fun v => (kindFlag k, v)).flatten

/-! ## Resumable downloader (`download_file_with_resume`) -/

/-- What the downloader observes of the disk: size of the destination file
and of the sibling `<name>.temp` file (`none` = the path does not exist). -/
structure FileState where
  destSize : Option Nat
  tempSize : Option Nat
deriving DecidableEq

/-- How `urlopen(req)` and the body read behave for one request.
`raiseHttp c` is an `HTTPError` with `.code = c` raised by `urlopen`
(so it is raised before `content_length` is assigned); `raiseTransport`
is a transport-level fault (timeout, connection reset, DNS failure) whose
exception object carries no `.code` attribute. -/
inductive ServerBehavior
  | ok (status : Nat) (contentLength : Nat) (chunks : List Nat)
  | raiseHttp (code : Nat)
  | raiseTransport
deriving DecidableEq

/-- How one call to `download_file_with_resume` ends: a returned boolean, or
an `AttributeError` escaping the `except` block (evaluating `e.code` on an
exception that has no `code` attribute). -/
inductive DlResult
  | ret (b : Bool)
  | attrError
deriving DecidableEq

/-- The mode the temp file is opened with: `"ab"` or `"wb"`. -/
inductive WriteMode
  | append
  | truncate
deriving DecidableEq

/-- Everything one call to `download_file_with_resume` did. `updates` lists
the `update_progress(flag, value)` calls it made, in order; `rangeOffset`
is the offset of the `Range` header, when one was sent. -/
structure DlOutcome where
  result : DlResult
  fs : FileState
  writeMode : Option WriteMode
  updates : List (Option String × Nat)
  rangeOffset : Option Nat
deriving DecidableEq

/-- Embeds `download_file_with_resume(url, file_path, overwrite, flag,
file_size)` line by line:
* destination exists and `overwrite` is false: report `file_size` (only when
  it is truthy, i.e. neither `None` nor `0`) and return `True` with no request;
* destination exists and `overwrite` is true: `os.remove(file_path)` first;
* the temp file's size (0 when absent) is the resume offset; a `Range`
  header is sent iff it is positive;
* `content_length` starts at 0; the request is then issued:
  - a transport fault reaches `except Exception`, is logged, and then
    `e.code` raises `AttributeError` (the exception has no such attribute);
  - an `HTTPError` has `.code`; the handler promotes the temp file to the
    destination only when `code == 416` and `downloaded_bytes ==
    content_length` — and `content_length` is still `0` at that point —
    then returns `False` either way;
  - status 206: append from the resume offset; final temp size is
    offset + sum of chunk sizes;
  - status 200: `downloaded_bytes` is reset to 0, so the temp file is opened
    in `"wb"` (truncating) mode and the final temp size is the sum of chunk
    sizes alone;
  - any other status: log and return `False`, temp file retained;
* each chunk's length is reported to `update_progress` as it is written;
* on success, `shutil.move` promotes the temp file to the destination. -/
def download_file_with_resume (fs : FileState) (server : ServerBehavior)
    (overwrite : Bool) (flag : Option String) (file_size : Option Nat) :
    DlOutcome :=
  if fs.destSize.isSome && !overwrite then
    { result := .ret true, fs := fs, writeMode := none,
      updates :=
        match file_size with
        | some n => if n ≠ 0 then [(flag, n)] else []
        | none => [],
      rangeOffset := none }
  else
    let fs1 : FileState := { fs with destSize := none }
    let downloaded_bytes := fs1.tempSize.getD 0
    let rangeOffset : Option Nat :=
      if downloaded_bytes > 0 then some downloaded_bytes else none
    let content_length := 0
    match server with
    | .raiseTransport =>
        { result := .attrError, fs := fs1, writeMode := none, updates := [],
          rangeOffset := rangeOffset }
    | .raiseHttp c =>
        if c = 416 ∧ downloaded_bytes = content_length then
          { result := .ret false,
            fs := if fs1.tempSize.isSome then
                { destSize := fs1.tempSize, tempSize := none }
              else fs1,
            writeMode := none, updates := [], rangeOffset := rangeOffset }
        else
          { result := .ret false, fs := fs1, writeMode := none, updates := [],
            rangeOffset := rangeOffset }
    | .ok status _contentLength chunks =>
        if status = 206 then
          { result := .ret true,
            fs := { destSize := some (downloaded_bytes + chunks.sum), tempSize := none },
            writeMode := some (if downloaded_bytes > 0 then .append else .truncate),
            updates := chunks.map fun c => (flag, c),
            rangeOffset := rangeOffset }
        else if status = 200 then
          { result := .ret true,
            fs := { destSize := some chunks.sum, tempSize := none },
            writeMode := some .truncate,
            updates := chunks.map fun c => (flag, c),
            rangeOffset := rangeOffset }
        else
          { result := .ret false, fs := fs1, writeMode := none, updates := [],
            rangeOffset := rangeOffset }

/-! ## Launcher states and startup state derivation -/

/-- Embeds the `LauncherState` enumeration (spelling as in the source). -/
inductive LauncherState
  | STARTGAME
  | GAMERUNNING
  | NEEDINSTALL
  | DOWNLOADING
  | VALIDATING
  | NEEDUPDATE
  | UPDATING
  | MERGEING
  | NETWORKERROR
deriving DecidableEq

/-- One entry of the manifest's `resource` list. -/
structure Resource where
  dest : String
  size : Nat
  md5 : String
deriving DecidableEq

/-- The scan loop of `init_launcher_state` when no local version exists:
walk the resource list; the first `dest` missing on disk sets `NEEDINSTALL`
and returns; when the loop completes the state stays `STARTGAME`. -/
def init_state_scan (onDisk : String → Bool) : List Resource → LauncherState
  | [] => .STARTGAME
  | r :: rest =>
      if onDisk r.dest then init_state_scan onDisk rest else .NEEDINSTALL

/-- Embeds the startup state derivation: `Launcher.__init__` sets
`NETWORKERROR` and returns when the manifest fetch came back `None`
(`fetchOk = false`); otherwise `init_launcher_state` runs: it starts from
`STARTGAME`, scans the resource list when no local version marker exists,
and compares `current_version` with `local_version` when one does. -/
def init_launcher_state (fetchOk : Bool) (local_version : Option String)
    (current_version : String) (resources : List Resource)
    (onDisk : String → Bool) : LauncherState :=
  if fetchOk = false then .NETWORKERROR
  else
    match local_version with
    | none => init_state_scan onDisk resources
    | some v => if current_version ≠ v then .NEEDUPDATE else .STARTGAME

/-! ## Version marker (`get_localVersion`, `update_localVersion`) -/

/-- A JSON scalar as the marker file uses them. -/
inductive JVal
  | str (s : String)
  | bool (b : Bool)
deriving DecidableEq

/-- The marker file `launcherDownloadConfig.json` as a JSON object:
key/value pairs in file order. -/
abbrev Marker := List (String × JVal)

/-- Embeds `get_localVersion`: reads the marker and returns
`data.get('version', None)`; no other field is read. -/
def get_localVersion (data : Marker) : Option JVal :=
  data.lookup "version"

/-- Embeds `update_localVersion`: builds the fixed `temp` object from
`current_version` and the constants `""`, `""`, `False`, `"10003"`,
then opens the marker file with mode `'w'` and dumps `temp`.  The existing
file content (the argument) is never read: the result does not depend on it. -/
def update_localVersion (current_version : String) (_existing : Marker) : Marker :=
  [("version", .str current_version),
   ("reUseVersion", .str ""),
   ("state", .str ""),
   ("isPreDownload", .bool false),
   ("appId", .str "10003")]

/-! ## Verification pass (`verify_gamefile`) -/

/-- What the per-file body of `verify_gamefile`'s loop did for one resource:
whether the first digest matched, how many re-downloads it issued, how many
times it recomputed the digest after a re-download, whether the recheck
matched, and whether the unresolved-mismatch error was logged. -/
structure VerifyReport where
  dest : String
  matched : Bool
  downloads : Nat
  recomputes : Nat
  healed : Bool
  logged_unresolved : Bool
deriving DecidableEq

/-- One iteration of `verify_gamefile`'s loop over a digest map
`fs : path → Option md5` (`none` = file absent, as `get_file_md5` returns
`None` then).  `dl path` is the digest the path holds after the
`overwrite=True` re-download.  Returns the new digest map, the report, and
the values passed to `update_progress(flag='verify', ...)` (the re-download
itself passes `flag=None`, so its chunks feed no counter). -/
def verify_step (dl : String → Option String) (fs : String → Option String)
    (r : Resource) :
    (String → Option String) × VerifyReport × List Nat :=
  if fs r.dest = some r.md5 then
    (fs,
     { dest := r.dest, matched := true, downloads := 0, recomputes := 0,
       healed := true, logged_unresolved := false },
     [r.size])
  else
    let fs1 : String → Option String := fun p => if p = r.dest then dl r.dest else fs p
    let ok : Bool := fs1 r.dest = some r.md5
    (fs1,
     { dest := r.dest, matched := false, downloads := 1, recomputes := 1,
       healed := ok, logged_unresolved := !ok },
     [r.size])

/-- The loop of `verify_gamefile` over the whole resource list. -/
def verify_loop (dl : String → Option String) (fs : String → Option String) :
    List Resource → (String → Option String) × List VerifyReport × List Nat
  | [] => (fs, [], [])
  | r :: rest =>
      let s := verify_step dl fs r
      let t := verify_loop dl s.1 rest
      (t.1, s.2.1 :: t.2.1, s.2.2 ++ t.2.2)

/-- The prune preamble of `verify_gamefile`: every file listed under
`Client/Content/Paks` whose name no manifest `dest` under that directory
ends in is unlinked. -/
def prune_paks (fs : String → Option String) (localPaks : List String)
    (resources : List Resource) : String → Option String :=
  let chunk_paks :=
    (resources.filter fun r => r.dest.startsWith "Client/Content/Paks/").map
      fun r => (r.dest.splitOn "/").getLastD ""
  fun p =>
    if (localPaks.filter fun c => !chunk_paks.contains c).any
        (fun c => p = "Client/Content/Paks/" ++ c) then none
    else fs p

/-- What a `verify_gamefile` run produced. -/
structure VerifyOut where
  fs : String → Option String
  reports : List VerifyReport
  progressValues : List Nat
  marker : Marker

/-- Embeds `verify_gamefile`: prune the pak directory, loop once over the
resource list (each mismatch re-downloaded once with `overwrite=True` and
rechecked once, the loop never revisiting an entry), then call
`update_localVersion`, which rewrites the marker from `current_version`. -/
def verify_gamefile (dl : String → Option String) (fs : String → Option String)
    (localPaks : List String) (resources : List Resource)
    (current_version : String) (priorMarker : Marker) : VerifyOut :=
  let fs0 := prune_paks fs localPaks resources
  let t := verify_loop dl fs0 resources
  { fs := t.1, reports := t.2.1, progressValues := t.2.2,
    marker := update_localVersion current_version priorMarker }

/-! ## Install pass (`download_game`) -/

/-- The per-call environment of `download_game`'s downloads: for the i-th
resource, the file state its paths are in and how the server behaves. -/
def DlEnv : Type := Nat → FileState × ServerBehavior

/-- The loop of `download_game`: for each resource, call
`download_file_with_resume(url, file_path, flag='download',
file_size=file['size'])`, DISCARD its boolean result, and increment
`finished_count` unconditionally.  A call ending in `AttributeError`
(transport fault, see `download_file_with_resume`) propagates. -/
def download_game_loop (env : DlEnv) :
    List Resource → Nat → ProgressInfo → Except Unit ProgressInfo
  | [], _, p => .ok p
  | r :: rest, i, p =>
      let e := env i
      let out := download_file_with_resume e.1 e.2 false (some "download") (some r.size)
      match out.result with
      | .attrError => .error ()
      | .ret _b =>
          let p1 := { p with
            finished_size := p.finished_size + (out.updates.map Prod.snd).sum }
          download_game_loop env rest (i + 1)
            { p1 with finished_count := p1.finished_count + 1 }

/-- Embeds `download_game`: set `total_count` to the resource list's length
and `total_size` to the summed sizes, then run the loop.  The procedure
returns no success/failure value of its own (Python returns `None`); the
progress record is the only observable. -/
def download_game (env : DlEnv) (resources : List Resource) :
    Except Unit ProgressInfo :=
  download_game_loop env resources 0
    { total_count := resources.length,
      total_size := (resources.map fun r => r.size).sum }

/-! ## Incremental patch (`download_patch`, `merge_patch`) -/

/-- A Python exception kind relevant to the patch path. -/
inductive PyError
  | typeError
deriving DecidableEq

/-- One entry of the patch manifest's `resource` list. -/
structure PatchResource where
  dest : String
  fromFolder : Option String
deriving DecidableEq

/-- The launcher state the patch pipeline reads and writes:
`self.krdiff_file_path`, initialized to `None` in `__init__`. -/
structure PatchState where
  krdiff_file_path : Option String
deriving DecidableEq

/-- What a `download_patch` run produced when it returned normally. -/
structure DownloadPatchOut where
  st : PatchState
  tempDownloads : List String
  rootDownloads : List String
  localKrdiff : Option String
deriving DecidableEq

/-- Embeds `download_patch`: it creates the temp folder, initializes a
LOCAL variable `krdiff_file_path = None`, then loops over
`self.gamefile_index_patch['resource']`.  The loop body's first statement is
`length = len(self.game_folder_path['resource'])`; `self.game_folder_path`
is a `pathlib.Path`, which does not support subscription, so the first
iteration raises `TypeError` — every statement below it (both download
branches and the assignment to the local `krdiff_file_path`) is unreachable,
and `self.krdiff_file_path` is never assigned anywhere in the function.
With an empty resource list the loop body never runs and the function
returns with the launcher state unchanged. -/
def download_patch (st : PatchState) (resources : List PatchResource) :
    Except PyError DownloadPatchOut :=
  match resources with
  | [] => .ok { st := st, tempDownloads := [], rootDownloads := [], localKrdiff := none }
  | _ :: _ => .error .typeError

/-- A node of the file tree: a regular file or a directory. -/
inductive FsNode
  | file
  | dir
deriving DecidableEq

/-- A file tree as an association list from slash-separated relative paths
to nodes; descendants of a directory are separate entries under its path. -/
abbrev Tree := List (String × FsNode)

/-- `destination.unlink()`: remove the binding at exactly this path. -/
def unlinkPath (t : Tree) (p : String) : Tree :=
  t.filter fun e => e.1 != p

/-- `shutil.rmtree(destination)`: remove the binding at this path and every
binding under it. -/
def rmtreePath (t : Tree) (p : String) : Tree :=
  t.filter fun e => !(e.1 == p || (p ++ "/").isPrefixOf e.1)

/-- One iteration of `merge_patch`'s loop for a scratch entry: if the
destination exists in the live tree, unlink it when it is a file and
`rmtree` it otherwise, then `shutil.move` the scratch entry into place. -/
def merge_entry (live : Tree) (item : String × FsNode) : Tree :=
  let live1 :=
    match live.lookup item.1 with
    | some .file => unlinkPath live item.1
    | some .dir => rmtreePath live item.1
    | none => live
  (item.1, item.2) :: live1

/-- What a `merge_patch` run did: the `hpatchz` invocation (its three
positional arguments `original tree, patch file, output tree`; the `-f`
force flag is always appended), the live tree afterwards, and whether the
scratch tree and the diff package were removed. -/
structure MergeOut where
  toolRun : Option (String × String × String)
  live : Tree
  tempRemoved : Bool
  krdiffRemoved : Bool
deriving DecidableEq

/-- Embeds `merge_patch`: everything is guarded by `if self.krdiff_file_path:`
— when it is `None` the procedure does nothing at all.  Otherwise it runs
`run_hpatchz(self.krdiff_file_path, self.game_folder_path,
self.temp_folder_path)` (whose command line is
`hpatchz <original> <patch> <output> -f`), walks every entry of the scratch
tree moving it into the live tree (removing a pre-existing destination
first), then removes the scratch tree and unlinks the diff package.
`scratch` is the scratch tree's entries as `rglob` yields them. -/
def merge_patch (st : PatchState) (game_folder_path temp_folder_path : String)
    (live : Tree) (scratch : List (String × FsNode)) : MergeOut :=
  match st.krdiff_file_path with
  | none =>
      { toolRun := none, live := live, tempRemoved := false, krdiffRemoved := false }
  | some kr =>
      { toolRun := some (game_folder_path, kr, temp_folder_path),
        live := scratch.foldl merge_entry live,
        tempRemoved := true, krdiffRemoved := true }

/-! ## Theorems -/

/-- C1: the spec claims every transport-level fault (an exception without an
HTTP status code) is caught, logged, and turned into a `False` return.  The
`except` block does log, but then unconditionally evaluates `e.code`; a
transport-fault exception has no `code` attribute, so an `AttributeError`
escapes the function instead of `False` being returned.  Evaluated at a
concrete call: a 7-byte partial temp file and a timeout. -/
theorem c1_transport_fault_raises :
    (download_file_with_resume ⟨none, some 7⟩ .raiseTransport false none none).result
      = .attrError
    ∧ (download_file_with_resume ⟨none, some 7⟩ .raiseTransport false none none).result
      ≠ .ret false := by
  decide

/-- C3: the claim says `download_patch` downloads every entry of the iterated
patch-manifest resource list.  The loop body first evaluates
`len(self.game_folder_path['resource'])`, subscripting a `pathlib.Path`, so
the first iteration raises `TypeError` and no entry is ever downloaded.
Evaluated at a concrete patch manifest with one carried-over entry. -/
theorem c3_download_patch_raises_type_error :
    download_patch ⟨none⟩ [⟨"pakchunk0-WindowsNoEditor.pak", some "2.0.0"⟩]
      = .error .typeError := by
  rfl

/-- C2: the claim says that after `download_patch` stages the patch resources,
`merge_patch` runs the diff-apply tool and merges the scratch tree (in
particular replacing a live directory by a scratch file).  In the code,
`download_patch` raises `TypeError` on any non-empty resource list, and in
every case leaves `self.krdiff_file_path` at `None` (it only assigns a local
variable of that name), so `merge_patch`'s guard `if self.krdiff_file_path:`
skips the whole body: no tool invocation, live tree untouched — a live
directory at `a/b.txt` survives even when the scratch tree holds a file
there. -/
theorem c2_merge_patch_after_download_patch_is_noop :
    download_patch ⟨none⟩ [⟨"game_2.0.0-2.1.0.krdiff", none⟩] = .error .typeError
    ∧ download_patch ⟨none⟩ [] =
        .ok { st := ⟨none⟩, tempDownloads := [], rootDownloads := [], localKrdiff := none }
    ∧ (merge_patch ⟨none⟩ "Wuthering Waves Game" "temp_folder"
        [("a/b.txt", .dir), ("a/b.txt/old", .file)] [("a/b.txt", .file)]).toolRun = none
    ∧ (merge_patch ⟨none⟩ "Wuthering Waves Game" "temp_folder"
        [("a/b.txt", .dir), ("a/b.txt/old", .file)] [("a/b.txt", .file)]).live
      = [("a/b.txt", .dir), ("a/b.txt/old", .file)] := by
  exact ⟨rfl, rfl, rfl, rfl⟩

/-- C4: the claim says a 416 response with a temp file already at the
expected full size promotes the temp file and counts as complete.  The
handler compares `downloaded_bytes` with `content_length`, and
`content_length` is still `0` when `urlopen` raises, so with a 100-byte temp
file (equal to the expected full size, `file_size = 100`) the comparison
`100 == 0` fails: the temp file is not promoted and the call returns
`False`. -/
theorem c4_http416_full_temp_not_promoted :
    (download_file_with_resume ⟨none, some 100⟩ (.raiseHttp 416) false none (some 100)).result
      = .ret false
    ∧ (download_file_with_resume ⟨none, some 100⟩ (.raiseHttp 416) false none (some 100)).fs
      = ⟨none, some 100⟩ := by
  decide

/-- C9 counterexample: the claim says `update_localVersion` passes the
non-version fields of the existing marker through unchanged.  With an
existing marker holding `reUseVersion = "keep"` and an opaque field
`customField = "x"`, the rewritten marker holds `reUseVersion = ""` and no
`customField` at all. -/
theorem c9_counterexample_fields_clobbered :
    ¬ ((update_localVersion "2.0.0"
          [("version", .str "1.0.0"), ("reUseVersion", .str "keep"),
           ("customField", .str "x")]).lookup "reUseVersion"
        = ([("version", JVal.str "1.0.0"), ("reUseVersion", .str "keep"),
            ("customField", .str "x")] : Marker).lookup "reUseVersion"
      ∧ (update_localVersion "2.0.0"
          [("version", .str "1.0.0"), ("reUseVersion", .str "keep"),
           ("customField", .str "x")]).lookup "customField"
        = ([("version", JVal.str "1.0.0"), ("reUseVersion", .str "keep"),
            ("customField", .str "x")] : Marker).lookup "customField") := by
  decide

/-- C9 (amended): `get_localVersion` reads back only the `version` field;
`update_localVersion` never reads the existing marker — it rewrites the file
as the fixed object `version = current, reUseVersion = "", state = "",
isPreDownload = false, appId = "10003"`, identical for any prior content,
and reading the version back yields the version just written. -/
theorem c9_amended_marker_rewritten_from_constants (v : String) (e1 e2 : Marker) :
    update_localVersion v e1 = update_localVersion v e2
    ∧ update_localVersion v e1 =
        [("version", .str v), ("reUseVersion", .str ""), ("state", .str ""),
         ("isPreDownload", .bool false), ("appId", .str "10003")]
    ∧ get_localVersion (update_localVersion v e1) = some (.str v) := by
  refine ⟨rfl, rfl, ?_⟩
  simp [get_localVersion, update_localVersion, List.lookup]

/-- The scan loop of `init_launcher_state` yields `NEEDINSTALL` exactly when
some resource destination is absent, and `STARTGAME` exactly when all are
present. -/
theorem init_state_scan_characterization (onDisk : String → Bool)
    (rs : List Resource) :
    (init_state_scan onDisk rs = .NEEDINSTALL ↔ ∃ r ∈ rs, onDisk r.dest = false)
    ∧ (init_state_scan onDisk rs = .STARTGAME ↔ ∀ r ∈ rs, onDisk r.dest = true) := by
  induction rs with
  | nil => simp [init_state_scan]
  | cons r rest ih =>
    cases h : onDisk r.dest with
    | false => simp [init_state_scan, h]
    | true => simp [init_state_scan, h, ih.1, ih.2]

/-- C7: startup state derivation is the claimed function of the manifest
fetch result, the local version marker, the manifest version and the
on-disk resource files: fetch failure yields `NETWORKERROR`; with no local
version, `NEEDINSTALL` iff some `ResourceEntry.dest` is absent and
`STARTGAME` iff all are present; with a local version, `NEEDUPDATE` iff it
differs from the manifest version and `STARTGAME` iff they are equal. -/
theorem c7_state_derivation (fetchOk : Bool) (lv : Option String) (cv : String)
    (rs : List Resource) (onDisk : String → Bool) :
    (fetchOk = false → init_launcher_state fetchOk lv cv rs onDisk = .NETWORKERROR)
    ∧ (fetchOk = true → lv = none →
        ((init_launcher_state fetchOk lv cv rs onDisk = .NEEDINSTALL
            ↔ ∃ r ∈ rs, onDisk r.dest = false)
          ∧ (init_launcher_state fetchOk lv cv rs onDisk = .STARTGAME
            ↔ ∀ r ∈ rs, onDisk r.dest = true)))
    ∧ (∀ v, fetchOk = true → lv = some v →
        ((v ≠ cv → init_launcher_state fetchOk lv cv rs onDisk = .NEEDUPDATE)
          ∧ (v = cv → init_launcher_state fetchOk lv cv rs onDisk = .STARTGAME))) := by
  refine ⟨?_, ?_, ?_⟩
  · intro h
    simp [init_launcher_state, h]
  · intro hOk hnone
    subst hnone
    simpa [init_launcher_state, hOk] using init_state_scan_characterization onDisk rs
  · intro v hOk hsome
    subst hsome
    constructor
    · intro hne
      simp [init_launcher_state, hOk, Ne.symm hne]
    · intro heq
      simp [init_launcher_state, hOk, heq]

/-- Shape of every report `verify_loop` emits: one report per resource, in
order; a first-digest match issues no download; a mismatch issues exactly
one `overwrite=True` re-download and exactly one recheck, and logs the
unresolved error precisely when the recheck still mismatches. -/
theorem verify_loop_reports (dl : String → Option String)
    (fs : String → Option String) (rs : List Resource) :
    (verify_loop dl fs rs).2.1.length = rs.length
    ∧ ∀ rep ∈ (verify_loop dl fs rs).2.1,
        rep.downloads ≤ 1 ∧ rep.recomputes ≤ 1
        ∧ (rep.matched = false → rep.downloads = 1 ∧ rep.recomputes = 1
            ∧ (rep.healed = false → rep.logged_unresolved = true))
        ∧ (rep.matched = true → rep.downloads = 0 ∧ rep.recomputes = 0) := by
  induction rs generalizing fs with
  | nil => simp [verify_loop]
  | cons r rest ih =>
    refine ⟨?_, ?_⟩
    · simpa [verify_loop] using (ih (verify_step dl fs r).1).1
    · intro rep hrep
      simp only [verify_loop, List.mem_cons] at hrep
      rcases hrep with hrep | hrep
      · subst hrep
        by_cases h : fs r.dest = some r.md5
        · simp [verify_step, h]
        · by_cases h2 : (fun p => if p = r.dest then dl r.dest else fs p) r.dest = some r.md5
          · simp [verify_step, h, h2]
          · simp [verify_step, h, h2]
      · exact (ih (verify_step dl fs r).1).2 rep hrep

/-- C5: in `verify_gamefile`, every resource whose digest mismatches is
re-downloaded exactly once with overwrite and its digest recomputed exactly
once; a persisting mismatch is logged as unresolved but the loop still
produces one report per resource (it never loops on one file and covers the
whole list); after the pass, `update_localVersion` puts the manifest's
version into the version marker. -/
theorem c5_verify_retry_once_completes (dl fs : String → Option String)
    (localPaks : List String) (rs : List Resource) (cur : String)
    (prior : Marker) :
    (verify_gamefile dl fs localPaks rs cur prior).reports.length = rs.length
    ∧ (∀ rep ∈ (verify_gamefile dl fs localPaks rs cur prior).reports,
        rep.downloads ≤ 1 ∧ rep.recomputes ≤ 1
        ∧ (rep.matched = false → rep.downloads = 1 ∧ rep.recomputes = 1
            ∧ (rep.healed = false → rep.logged_unresolved = true))
        ∧ (rep.matched = true → rep.downloads = 0 ∧ rep.recomputes = 0))
    ∧ get_localVersion (verify_gamefile dl fs localPaks rs cur prior).marker
        = some (.str cur) := by
  have h := verify_loop_reports dl (prune_paks fs localPaks rs) rs
  refine ⟨h.1, h.2, ?_⟩
  simp [verify_gamefile, get_localVersion, update_localVersion, List.lookup]

/-- A call whose server behaviour is not a transport fault never ends in the
escaping `AttributeError`: every other path returns a boolean. -/
theorem download_result_not_attrError (fs : FileState) (srv : ServerBehavior)
    (ov : Bool) (flag : Option String) (fsz : Option Nat)
    (h : srv ≠ .raiseTransport) :
    (download_file_with_resume fs srv ov flag fsz).result ≠ .attrError := by
  cases srv with
  | raiseTransport => exact absurd rfl h
  | raiseHttp c =>
    simp only [download_file_with_resume]
    split_ifs <;> simp
  | ok status cl chunks =>
    simp only [download_file_with_resume]
    split_ifs <;> simp

/-- The loop of `download_game` runs to the end of the list whenever no call
raises, and increments `finished_count` once per resource no matter what
boolean each download returned; the totals are untouched by the loop. -/
theorem download_game_loop_counts (env : DlEnv) (rs : List Resource) (i : Nat)
    (p : ProgressInfo)
    (h : ∀ j, j < rs.length → (env (i + j)).2 ≠ .raiseTransport) :
    ∃ q, download_game_loop env rs i p = .ok q
      ∧ q.finished_count = p.finished_count + rs.length
      ∧ q.total_count = p.total_count ∧ q.total_size = p.total_size := by
  induction rs generalizing i p with
  | nil => exact ⟨p, rfl, by simp, rfl, rfl⟩
  | cons r rest ih =>
    have h0 : (env i).2 ≠ .raiseTransport := by
      simpa using h 0 (by simp)
    have hrest : ∀ j, j < rest.length → (env (i + 1 + j)).2 ≠ .raiseTransport := by
      intro j hj
      have := h (j + 1) (by simpa using Nat.succ_lt_succ hj)
      simpa [Nat.add_assoc, Nat.add_comm 1 j] using this
    cases hres : (download_file_with_resume (env i).1 (env i).2 false
        (some "download") (some r.size)).result with
    | attrError =>
      exact absurd hres (download_result_not_attrError _ _ _ _ _ h0)
    | ret b =>
      obtain ⟨q, hq, hfin, htc, hts⟩ := ih (i + 1)
        { p with
          finished_size := p.finished_size +
            (((download_file_with_resume (env i).1 (env i).2 false
              (some "download") (some r.size)).updates.map Prod.snd).sum),
          finished_count := p.finished_count + 1 } hrest
      refine ⟨q, ?_, ?_, ?_, ?_⟩
      · simp only [download_game_loop, hres]
        exact hq
      · simp only [hfin]
        simp [List.length_cons]
        omega
      · simpa using htc
      · simpa using hts

/-- C10: `download_game` increments `finished_count` exactly once per
resource entry regardless of the boolean each `download_file_with_resume`
call returned, and the pass's only observable is the progress record: after
a pass in which no call raised, `finished_count` equals `total_count`
(the resource-list length) whatever the per-file outcomes were. -/
theorem c10_download_game_finished_count (env : DlEnv) (rs : List Resource)
    (h : ∀ j, j < rs.length → (env j).2 ≠ .raiseTransport) :
    ∃ p, download_game env rs = .ok p
      ∧ p.finished_count = rs.length
      ∧ p.total_count = rs.length
      ∧ p.finished_count = p.total_count := by
  obtain ⟨q, hq, hfin, htc, hts⟩ := download_game_loop_counts env rs 0
    { total_count := rs.length, total_size := (rs.map fun r => r.size).sum }
    (by simpa using h)
  refine ⟨q, hq, by simpa using hfin, by simpa using htc, ?_⟩
  simp only [htc]
  simpa using hfin

/-- Witness for C10 at a concrete input: one resource, a server that answers
the full body; the hypothesis (no transport fault) holds by computation. -/
theorem c10_download_game_finished_count_witness :
    ∃ p, download_game (fun _ => (⟨none, none⟩, .ok 200 3 [3]))
        [⟨"Client/Binaries/Game.exe", 3, "0123456789abcdef0123456789abcdef"⟩] = .ok p
      ∧ p.finished_count = 1
      ∧ p.total_count = 1
      ∧ p.finished_count = p.total_count := by
  have := c10_download_game_finished_count (fun _ => (⟨none, none⟩, .ok 200 3 [3]))
    [⟨"Client/Binaries/Game.exe", 3, "0123456789abcdef0123456789abcdef"⟩]
    (by decide)
  simpa using this

/-- C6: a ranged request for a partial temp file of `N > 0` bytes that the
server answers with `200` restarts from zero: the temp file is opened in
truncating (`"wb"`) mode, the progress updates of the call sum to the new
transfer alone, and the final file's size is the content length — not `N`
plus the content length — even though the `Range` header was sent with
offset `N`. -/
theorem c6_restart_on_200 (N L : Nat) (cs : List Nat) (flag : Option String)
    (hN : 0 < N) (hsum : cs.sum = L) :
    (download_file_with_resume ⟨none, some N⟩ (.ok 200 L cs) false flag none).writeMode
      = some .truncate
    ∧ (download_file_with_resume ⟨none, some N⟩ (.ok 200 L cs) false flag none).fs.destSize
      = some L
    ∧ ((download_file_with_resume ⟨none, some N⟩ (.ok 200 L cs) false flag none).updates.map
        Prod.snd).sum = L
    ∧ (download_file_with_resume ⟨none, some N⟩ (.ok 200 L cs) false flag none).fs.destSize
      ≠ some (N + L)
    ∧ (download_file_with_resume ⟨none, some N⟩ (.ok 200 L cs) false flag none).rangeOffset
      = some N := by
  have hne : ¬ (L = N + L) := by omega
  simp [download_file_with_resume, hN, hsum, hne]

/-- Witness for C6 at a concrete input: a 5-byte partial, a 200 answer with
content length 3 delivered in chunks of 2 and 1 bytes. -/
theorem c6_restart_on_200_witness :
    (download_file_with_resume ⟨none, some 5⟩ (.ok 200 3 [2, 1]) false none none).writeMode
      = some .truncate
    ∧ (download_file_with_resume ⟨none, some 5⟩ (.ok 200 3 [2, 1]) false none none).fs.destSize
      = some 3
    ∧ ((download_file_with_resume ⟨none, some 5⟩ (.ok 200 3 [2, 1]) false none none).updates.map
        Prod.snd).sum = 3
    ∧ (download_file_with_resume ⟨none, some 5⟩ (.ok 200 3 [2, 1]) false none none).fs.destSize
      ≠ some (5 + 3)
    ∧ (download_file_with_resume ⟨none, some 5⟩ (.ok 200 3 [2, 1]) false none none).rangeOffset
      = some 5 :=
  c6_restart_on_200 5 3 [2, 1] none (by decide) (by decide)

/-- One `update_progress` call adds `value` to kind `k`'s `finished_size`
exactly when the flag is `k`'s, and never touches any `total_size`. -/
theorem finished_total_update_progress (st : ProgressState) (f : Option String)
    (v : Nat) (k : Kind) :
    (progressOf (update_progress st f v) k).finished_size
      = (progressOf st k).finished_size + (if f = kindFlag k then v else 0)
    ∧ (progressOf (update_progress st f v) k).total_size
      = (progressOf st k).total_size := by
  cases k <;> simp only [update_progress, kindFlag] <;> split_ifs <;>
    simp_all [progressOf, addFinished]

/-- A sequence of `update_progress` calls adds, per kind, exactly the sum of
the values carrying that kind's flag; totals never move. -/
theorem finished_total_apply_updates (us : List (Option String × Nat))
    (st : ProgressState) (k : Kind) :
    (progressOf (apply_updates st us) k).finished_size
      = (progressOf st k).finished_size + valSum k us
    ∧ (progressOf (apply_updates st us) k).total_size
      = (progressOf st k).total_size := by
  induction us generalizing st with
  | nil => simp [apply_updates, valSum]
  | cons u rest ih =>
    have hstep := finished_total_update_progress st u.1 u.2 k
    have happly : apply_updates st (u :: rest)
        = apply_updates (update_progress st u.1 u.2) rest := by
      simp [apply_updates]
    have hval : valSum k (u :: rest)
        = (if u.1 = kindFlag k then u.2 else 0) + valSum k rest := by
      by_cases hc : u.1 = kindFlag k
      · simp [valSum, List.filter_cons, hc]
      · simp [valSum, List.filter_cons, hc]
    constructor
    · rw [happly, (ih _).1, hstep.1, hval]
      omega
    · rw [happly, (ih _).2, hstep.2]

/-- `valSum` distributes over concatenation. -/
theorem valSum_append (k : Kind) (l r : List (Option String × Nat)) :
    valSum k (l ++ r) = valSum k l + valSum k r := by
  simp [valSum, List.filter_append]

/-- A list of updates all carrying kind `k`'s flag reports its plain sum. -/
theorem valSum_single_kind (k : Kind) (c : List Nat) :
    valSum k (c.map fun v => (kindFlag k, v)) = c.sum := by
  induction c with
  | nil => simp [valSum]
  | cons v vs ih =>
    have hstep : valSum k ((kindFlag k, v) :: vs.map fun v => (kindFlag k, v))
        = v + valSum k (vs.map fun v => (kindFlag k, v)) := by
      simp [valSum, List.filter_cons]
    simp only [List.map_cons, hstep, ih, List.sum_cons]

/-- One pass's update sequence reports, for its kind, the sum of all
per-resource contributions. -/
theorem valSum_passUpdates (k : Kind) (cs : List (List Nat)) :
    valSum k (passUpdates k cs) = (cs.map List.sum).sum := by
  induction cs with
  | nil => simp [passUpdates, valSum]
  | cons c rest ih =>
    simp only [passUpdates, List.map_cons, List.flatten_cons] at ih ⊢
    rw [valSum_append, valSum_single_kind, ih, List.sum_cons]

/-- A prefix of an update sequence reports at most what the whole reports. -/
theorem valSum_take_le (k : Kind) (l : List (Option String × Nat)) (n : Nat) :
    valSum k (l.take n) ≤ valSum k l := by
  conv_rhs => rw [← List.take_append_drop n l]
  rw [valSum_append]
  exact Nat.le_add_right _ _

/-- Longer prefixes of an update sequence report at least as much. -/
theorem valSum_take_mono (k : Kind) (l : List (Option String × Nat))
    (n m : Nat) (h : n ≤ m) :
    valSum k (l.take n) ≤ valSum k (l.take m) := by
  have hsplit : l.take m = l.take n ++ (l.drop n).take (m - n) := by
    rw [← List.take_add]
    congr 1
    omega
  rw [hsplit, valSum_append]
  exact Nat.le_add_right _ _

/-- Pointwise-bounded contributions sum to at most the summed sizes. -/
theorem contrib_sum_le (cs : List (List Nat)) (ss : List Nat)
    (hlen : cs.length = ss.length)
    (hle : ∀ p ∈ cs.zip ss, p.1.sum ≤ p.2) :
    (cs.map List.sum).sum ≤ ss.sum := by
  induction cs generalizing ss with
  | nil => simp
  | cons c cs ih =>
    cases ss with
    | nil => simp at hlen
    | cons s ss =>
      simp only [List.zip_cons_cons, List.mem_cons] at hle
      simp only [List.map_cons, List.sum_cons]
      exact Nat.add_le_add (hle _ (Or.inl rfl))
        (ih ss (by simpa using hlen) fun p hp => hle p (Or.inr hp))

/-- Pointwise-exact contributions sum to exactly the summed sizes. -/
theorem contrib_sum_eq (cs : List (List Nat)) (ss : List Nat)
    (hlen : cs.length = ss.length)
    (heq : ∀ p ∈ cs.zip ss, p.1.sum = p.2) :
    (cs.map List.sum).sum = ss.sum := by
  induction cs generalizing ss with
  | nil =>
    cases ss with
    | nil => simp
    | cons s ss => simp at hlen
  | cons c cs ih =>
    cases ss with
    | nil => simp at hlen
    | cons s ss =>
      simp only [List.zip_cons_cons, List.mem_cons] at heq
      simp only [List.map_cons, List.sum_cons]
      rw [heq _ (Or.inl rfl), ih ss (by simpa using hlen) fun p hp => heq p (Or.inr hp)]

/-- C8: within one operation kind, `finished_size` only grows — along any
pass update sequence every longer prefix reports at least as much — it never
exceeds `total_size` once `total_size` holds the summed resource sizes and
every resource contributes at most its declared size, and when every
resource is satisfied (its chunk contributions, or its skip/match report,
sum to exactly its declared size) the pass ends with `finished_size` equal
to `total_size`. -/
theorem c8_progress_monotone_bounded (k : Kind) (st0 : ProgressState)
    (sizes : List Nat) (contribs : List (List Nat))
    (h0 : (progressOf st0 k).finished_size = 0)
    (htot : (progressOf st0 k).total_size = sizes.sum)
    (hlen : contribs.length = sizes.length)
    (hle : ∀ p ∈ contribs.zip sizes, p.1.sum ≤ p.2) :
    (∀ n m, n ≤ m →
        (progressOf (apply_updates st0 ((passUpdates k contribs).take n)) k).finished_size
          ≤ (progressOf (apply_updates st0 ((passUpdates k contribs).take m)) k).finished_size)
    ∧ (∀ n,
        (progressOf (apply_updates st0 ((passUpdates k contribs).take n)) k).finished_size
          ≤ (progressOf (apply_updates st0 ((passUpdates k contribs).take n)) k).total_size)
    ∧ ((∀ p ∈ contribs.zip sizes, p.1.sum = p.2) →
        (progressOf (apply_updates st0 (passUpdates k contribs)) k).finished_size
          = (progressOf (apply_updates st0 (passUpdates k contribs)) k).total_size) := by
  refine ⟨?_, ?_, ?_⟩
  · intro n m hnm
    rw [(finished_total_apply_updates _ _ _).1, (finished_total_apply_updates _ _ _).1, h0]
    simpa using valSum_take_mono k _ n m hnm
  · intro n
    rw [(finished_total_apply_updates _ _ _).1, (finished_total_apply_updates _ _ _).2,
      h0, htot]
    simp only [Nat.zero_add]
    calc valSum k ((passUpdates k contribs).take n)
        ≤ valSum k (passUpdates k contribs) := valSum_take_le ..
      _ = (contribs.map List.sum).sum := valSum_passUpdates ..
      _ ≤ sizes.sum := contrib_sum_le contribs sizes hlen hle
  · intro heq
    rw [(finished_total_apply_updates _ _ _).1, (finished_total_apply_updates _ _ _).2,
      h0, htot]
    simp only [Nat.zero_add]
    rw [valSum_passUpdates, contrib_sum_eq contribs sizes hlen heq]

/-- Witness for C8 at a concrete input: the download kind, totals 5 over two
resources of sizes 2 and 3, the first skipped in one report of 2 bytes, the
second transferred in chunks of 1 and 2 bytes. -/
theorem c8_progress_monotone_bounded_witness :
    (∀ n m, n ≤ m →
        (progressOf (apply_updates ⟨⟨5, 0, 2, 0⟩, ⟨0, 0, 0, 0⟩, ⟨0, 0, 0, 0⟩, ⟨0, 0, 0, 0⟩⟩
            ((passUpdates .download [[2], [1, 2]]).take n)) .download).finished_size
          ≤ (progressOf (apply_updates ⟨⟨5, 0, 2, 0⟩, ⟨0, 0, 0, 0⟩, ⟨0, 0, 0, 0⟩, ⟨0, 0, 0, 0⟩⟩
            ((passUpdates .download [[2], [1, 2]]).take m)) .download).finished_size)
    ∧ (∀ n,
        (progressOf (apply_updates ⟨⟨5, 0, 2, 0⟩, ⟨0, 0, 0, 0⟩, ⟨0, 0, 0, 0⟩, ⟨0, 0, 0, 0⟩⟩
            ((passUpdates .download [[2], [1, 2]]).take n)) .download).finished_size
          ≤ (progressOf (apply_updates ⟨⟨5, 0, 2, 0⟩, ⟨0, 0, 0, 0⟩, ⟨0, 0, 0, 0⟩, ⟨0, 0, 0, 0⟩⟩
            ((passUpdates .download [[2], [1, 2]]).take n)) .download).total_size)
    ∧ ((∀ p ∈ ([[2], [1, 2]] : List (List Nat)).zip ([2, 3] : List Nat), p.1.sum = p.2) →
        (progressOf (apply_updates ⟨⟨5, 0, 2, 0⟩, ⟨0, 0, 0, 0⟩, ⟨0, 0, 0, 0⟩, ⟨0, 0, 0, 0⟩⟩
            (passUpdates .download [[2], [1, 2]])) .download).finished_size
          = (progressOf (apply_updates ⟨⟨5, 0, 2, 0⟩, ⟨0, 0, 0, 0⟩, ⟨0, 0, 0, 0⟩, ⟨0, 0, 0, 0⟩⟩
            (passUpdates .download [[2], [1, 2]])) .download).total_size) :=
  c8_progress_monotone_bounded .download
    ⟨⟨5, 0, 2, 0⟩, ⟨0, 0, 0, 0⟩, ⟨0, 0, 0, 0⟩, ⟨0, 0, 0, 0⟩⟩
    [2, 3] [[2], [1, 2]] (by decide) (by decide) (by decide) (by decide)

end LutheringLaves
